import Mathlib

/-!
Verification of the VLESS server checker (`src/vless/checker.py`).

The Python source is shallowly embedded: Python floats become exact
rationals (`ℚ`), Python `int` becomes `ℤ`, strings that are only parsed
character-by-character become `List Char`, and the network/event
nondeterminism of one probe is captured by an explicit `ProbeEnv` record.
-/

/-- The `VLESSConfig` dataclass: identity and configuration fields plus the
measured fields `speed_mbps`, `latency_ms`, `status` (fields and defaults as
in the Python dataclass). -/
structure VLESSConfig where
  server : String
  server_port : Int
  uuid : String
  server_name : String := "vasya2.vaskeshu.ru"
  path : String := "/"
  speed_mbps : ℚ := 0
  latency_ms : ℚ := 0
  status : String := "unknown"
  tag : String := ""
deriving DecidableEq, Repr

/-- Outcome of the throughput HTTP GET issued by `measure_speed`:
a response (with its HTTP status code, body length in bytes, and elapsed
wall time in seconds), an `asyncio.TimeoutError`, or any other exception. -/
inductive HttpOutcome where
  | response (httpStatus : Nat) (bytesReceived : Nat) (elapsed : ℚ)
  | timeoutErr
  | otherErr
deriving DecidableEq, Repr

/-- What the progress callback invocation at the top of `measure_speed`
does: return normally (also the case of no callback at all), raise
`asyncio.TimeoutError`, or raise any other `Exception`.  The distinction
matters because the two `except` clauses of `measure_speed` assign
different statuses. -/
inductive CallbackOutcome where
  | completes
  | raisesTimeoutErr
  | raisesOtherErr
deriving DecidableEq, Repr

/-- The nondeterministic events of one `measure_speed` call, made explicit:
what the progress callback invocation does, whether the raw connection of
`check_latency` succeeds, the measured latency in ms when it does, and the
outcome of the throughput HTTP request. -/
structure ProbeEnv where
  callback : CallbackOutcome
  reachable : Bool
  latency : ℚ
  http : HttpOutcome
deriving DecidableEq, Repr

/-- `VLESSChecker.check_latency`: opens a raw connection; on success returns
`(True, elapsed ms)`; every exception (refusal, DNS failure, timeout) is
caught inside the function and yields `(False, 0.0)`. -/
def check_latency (env : ProbeEnv) : Bool × ℚ :=
  if env.reachable then (true, env.latency) else (false, 0)

/-- Python `round(x, 2)` (round-half-to-even) on exact rationals:
scale by 100, round to the nearest integer with ties to the even
integer, and scale back. -/
def round2 (q : ℚ) : ℚ :=
  let scaled : ℚ := q * 100
  let f : ℤ := ⌊scaled⌋
  let frac : ℚ := scaled - f
  let n : ℤ :=
    if frac < 1/2 then f
    else if 1/2 < frac then f + 1
    else if f % 2 = 0 then f else f + 1
  (n : ℚ) / 100

/-- `VLESSChecker.measure_speed`, instrumented: returns the updated config
together with a flag recording whether the throughput HTTP request was
issued.  The whole body sits in one `try` whose handlers are
`except asyncio.TimeoutError` (status `"timeout"`) then `except Exception`
(status `"error"`): a callback exception is caught by whichever handler
matches its type, aborting the check before any probing.  Unreachable hosts
short-circuit with `status = "unreachable"`.  Otherwise the latency is
recorded and the GET is made: HTTP 200 computes
`speed = (bytes / 2^20) / elapsed` rounded to two decimals and sets
`status = "ok"`; a non-200 response sets `"error"`; `asyncio.TimeoutError`
sets `"timeout"`; any other exception sets `"error"`. -/
def measure_speed (env : ProbeEnv) (config : VLESSConfig) : VLESSConfig × Bool :=
  match env.callback with
  | .raisesTimeoutErr => ({ config with status := "timeout" }, false)
  | .raisesOtherErr => ({ config with status := "error" }, false)
  | .completes =>
    let r := check_latency env
    if r.1 = false then
      ({ config with status := "unreachable" }, false)
    else
      let config := { config with latency_ms := r.2 }
      match env.http with
      | .response httpStatus bytesReceived elapsed =>
          if httpStatus = 200 then
            ({ config with
                speed_mbps := round2 (((bytesReceived : ℚ) / (1024 * 1024)) / elapsed),
                status := "ok" }, true)
          else
            ({ config with status := "error" }, true)
      | .timeoutErr => ({ config with status := "timeout" }, true)
      | .otherErr => ({ config with status := "error" }, true)

/-- `VLESSChecker.check_servers`: one `measure_speed` task per config,
gathered with `return_exceptions=True` in input order, then filtered to the
results that are `VLESSConfig` instances.  A task whose outcome is `none`
models an anomaly (a `BaseException` escaping `measure_speed`) captured by
`gather` as an exception value and dropped by the `isinstance` filter. -/
def check_servers (configs : List VLESSConfig) (outcomes : List (Option ProbeEnv)) :
    List VLESSConfig :=
  (configs.zip outcomes).filterMap (fun p => p.2.map (fun env => (measure_speed env p.1).1))

/-- Identity projection of a descriptor (preserved by every probe). -/
def idOf (c : VLESSConfig) : String × Int := (c.server, c.server_port)

/-- The terminal status enumeration that can appear on a returned result. -/
def terminalStatuses : List String := ["ok", "unreachable", "timeout", "error"]

lemma measure_speed_idOf (env : ProbeEnv) (c : VLESSConfig) :
    idOf (measure_speed env c).1 = idOf c := by
  unfold measure_speed check_latency idOf
  rcases env with ⟨cb, re, la, http⟩
  cases cb <;> cases re <;> cases http <;> simp <;> split <;> simp

lemma measure_speed_status_mem (env : ProbeEnv) (c : VLESSConfig) :
    (measure_speed env c).1.status ∈ terminalStatuses := by
  unfold measure_speed check_latency terminalStatuses
  rcases env with ⟨cb, re, la, http⟩
  cases cb <;> cases re <;> cases http <;> simp <;> split <;> simp

lemma check_servers_idOf_sublist (configs : List VLESSConfig)
    (outcomes : List (Option ProbeEnv)) :
    ((check_servers configs outcomes).map idOf).Sublist (configs.map idOf) := by
  induction configs generalizing outcomes with
  | nil => simp [check_servers]
  | cons c cs ih =>
    cases outcomes with
    | nil => simp [check_servers]
    | cons o os =>
      cases o with
      | none =>
        simpa [check_servers, List.filterMap_cons] using (ih os).cons (idOf c)
      | some env =>
        simpa [check_servers, List.filterMap_cons, measure_speed_idOf] using
          (ih os).cons₂ (idOf c)

lemma check_servers_status_mem (configs : List VLESSConfig)
    (outcomes : List (Option ProbeEnv)) :
    ∀ r ∈ check_servers configs outcomes, r.status ∈ terminalStatuses := by
  intro r hr
  simp only [check_servers, List.mem_filterMap] at hr
  obtain ⟨⟨c, o⟩, -, hmap⟩ := hr
  cases o with
  | none => simp at hmap
  | some env =>
    simp only [Option.map_some'] at hmap
    injection hmap with h
    exact h ▸ measure_speed_status_mem env c

/-- C1: `check_servers` returns a list that is a subsequence of its input
(witnessed on the probe-invariant identity projection), in input order, of
length at most the input length, and every returned descriptor's status is
one of `ok`, `unreachable`, `timeout`, `error`. -/
theorem check_servers_subsequence_and_statuses (configs : List VLESSConfig)
    (outcomes : List (Option ProbeEnv)) :
    (check_servers configs outcomes).length ≤ configs.length
    ∧ ((check_servers configs outcomes).map idOf).Sublist (configs.map idOf)
    ∧ ∀ r ∈ check_servers configs outcomes, r.status ∈ terminalStatuses := by
  refine ⟨?_, check_servers_idOf_sublist configs outcomes,
    check_servers_status_mem configs outcomes⟩
  have h := (check_servers_idOf_sublist configs outcomes).length_le
  simpa using h

/-- C2: when the latency check reports the host unreachable and the callback
does not interfere, the descriptor is returned with status `unreachable`,
latency and throughput still 0, and no HTTP attempt is made. -/
theorem measure_speed_unreachable_spec (env : ProbeEnv) (c : VLESSConfig)
    (hcb : env.callback = CallbackOutcome.completes)
    (hre : env.reachable = false)
    (hl : c.latency_ms = 0) (hs : c.speed_mbps = 0) :
    (measure_speed env c).1.status = "unreachable"
    ∧ (measure_speed env c).1.latency_ms = 0
    ∧ (measure_speed env c).1.speed_mbps = 0
    ∧ (measure_speed env c).2 = false := by
  simp [measure_speed, check_latency, hcb, hre, hl, hs]

/-- Scenario A environment: the raw connection to the endpoint fails. -/
def envUnreachable : ProbeEnv :=
  { callback := .completes, reachable := false, latency := 0, http := .otherErr }

/-- A freshly constructed descriptor for endpoint `203.0.113.5:443`. -/
def cfgScenario : VLESSConfig :=
  { server := "203.0.113.5", server_port := 443,
    uuid := "32a53867-a558-45a9-a73d-4844c375f0c8" }

theorem measure_speed_unreachable_spec_witness :
    (envUnreachable.callback = CallbackOutcome.completes
      ∧ envUnreachable.reachable = false
      ∧ cfgScenario.latency_ms = 0 ∧ cfgScenario.speed_mbps = 0)
    ∧ ((measure_speed envUnreachable cfgScenario).1.status = "unreachable"
      ∧ (measure_speed envUnreachable cfgScenario).1.latency_ms = 0
      ∧ (measure_speed envUnreachable cfgScenario).1.speed_mbps = 0
      ∧ (measure_speed envUnreachable cfgScenario).2 = false) :=
  ⟨⟨rfl, rfl, rfl, rfl⟩,
    measure_speed_unreachable_spec envUnreachable cfgScenario rfl rfl rfl rfl⟩

/-- C3: a reachable descriptor whose throughput probe answers HTTP 200 with
`b` bytes in `t` elapsed seconds gets throughput `round2 ((b / 2^20) / t)`
(MB/s, two decimals), status `ok`, and its measured latency recorded. -/
theorem measure_speed_ok_throughput (env : ProbeEnv) (c : VLESSConfig)
    (b : Nat) (t : ℚ) (hcb : env.callback = CallbackOutcome.completes)
    (hre : env.reachable = true) (hh : env.http = .response 200 b t)
    (ht : 0 < t) :
    (measure_speed env c).1.speed_mbps = round2 (((b : ℚ) / 2 ^ 20) / t)
    ∧ (measure_speed env c).1.status = "ok"
    ∧ (measure_speed env c).1.latency_ms = env.latency
    ∧ (measure_speed env c).2 = true := by
  have h20 : ((1024 : ℚ) * 1024) = 2 ^ 20 := by norm_num
  simp [measure_speed, check_latency, hcb, hre, hh, h20]

/-- Scenario B environment: reachable in 50 ms, the probe downloads 1 MiB
(1048576 bytes) in 0.5 s. -/
def envScenarioB : ProbeEnv :=
  { callback := .completes, reachable := true, latency := 50,
    http := .response 200 1048576 (1/2) }

theorem measure_speed_ok_throughput_witness :
    (0 : ℚ) < 1/2
    ∧ (measure_speed envScenarioB cfgScenario).1.speed_mbps = 2
    ∧ (measure_speed envScenarioB cfgScenario).1.status = "ok"
    ∧ (measure_speed envScenarioB cfgScenario).1.latency_ms = 50 := by
  have h := measure_speed_ok_throughput envScenarioB cfgScenario 1048576 (1/2)
    rfl rfl rfl (by norm_num)
  refine ⟨by norm_num, ?_, h.2.1, h.2.2.1⟩
  rw [h.1]
  norm_num [round2]

/-- The descending-throughput comparator shared by every sort in the source
(`key=lambda x: x.speed_mbps, reverse=True`, a stable sort with reversed
comparisons): `a` may precede `b` iff `b.speed_mbps ≤ a.speed_mbps`. -/
def speedGe (a b : VLESSConfig) : Bool := decide (b.speed_mbps ≤ a.speed_mbps)

/-- `filter_servers`: keep only status `"ok"`, then apply the strict upper
bound when given, then the strict lower bound when given, then sort by
throughput descending (Python's stable `list.sort` with `reverse=True`). -/
def filter_servers (results : List VLESSConfig)
    (max_speed_mbps : Option ℚ := none) (min_speed_mbps : Option ℚ := none) :
    List VLESSConfig :=
  let filtered := results.filter (fun r => r.status == "ok")
  let filtered : List VLESSConfig :=
    match max_speed_mbps with
    | some m => filtered.filter (fun r => decide (r.speed_mbps < m))
    | none => filtered
  let filtered : List VLESSConfig :=
    match min_speed_mbps with
    | some m => filtered.filter (fun r => decide (m < r.speed_mbps))
    | none => filtered
  filtered.mergeSort speedGe

/-- The predicate "kept by `filter_servers`" spelled out in one place:
status `"ok"`, strictly below the max bound when given, strictly above the
min bound when given. -/
def keptBy (max_speed_mbps min_speed_mbps : Option ℚ) (r : VLESSConfig) : Bool :=
  (r.status == "ok")
  && (match max_speed_mbps with
      | some m => decide (r.speed_mbps < m)
      | none => true)
  && (match min_speed_mbps with
      | some m => decide (m < r.speed_mbps)
      | none => true)

lemma speedGe_trans (a b c : VLESSConfig) (h1 : speedGe a b = true)
    (h2 : speedGe b c = true) : speedGe a c = true := by
  simp only [speedGe, decide_eq_true_iff] at *
  exact h2.trans h1

lemma speedGe_total (a b : VLESSConfig) : (speedGe a b || speedGe b a) = true := by
  simp only [speedGe, Bool.or_eq_true, decide_eq_true_iff]
  exact le_total b.speed_mbps a.speed_mbps

lemma filter_servers_eq_filter_sort (results : List VLESSConfig)
    (mx mn : Option ℚ) :
    filter_servers results mx mn
      = (results.filter (keptBy mx mn)).mergeSort speedGe := by
  have hfil : ∀ l : List VLESSConfig,
      (match mn with
        | some m => (match mx with
            | some m' => (l.filter (fun r : VLESSConfig => r.status == "ok")).filter
                (fun r : VLESSConfig => decide (r.speed_mbps < m'))
            | none => l.filter (fun r : VLESSConfig => r.status == "ok")).filter
              (fun r : VLESSConfig => decide (m < r.speed_mbps))
        | none => match mx with
            | some m' => (l.filter (fun r : VLESSConfig => r.status == "ok")).filter
                (fun r : VLESSConfig => decide (r.speed_mbps < m'))
            | none => l.filter (fun r : VLESSConfig => r.status == "ok"))
      = l.filter (keptBy mx mn) := by
    intro l
    cases mx <;> cases mn <;> simp only [List.filter_filter] <;>
      · apply List.filter_congr
        intro a _
        simp only [keptBy]
        cases h : (a.status == "ok") <;>
          simp [h, Bool.and_comm, Bool.and_assoc, Bool.and_left_comm]
  rw [← hfil results]
  cases mx <;> cases mn <;> rfl

lemma filter_servers_pairwise (results : List VLESSConfig) (mx mn : Option ℚ) :
    (filter_servers results mx mn).Pairwise (fun a b => speedGe a b = true) := by
  rw [filter_servers_eq_filter_sort]
  exact List.sorted_mergeSort speedGe_trans speedGe_total _

lemma filter_servers_perm (results : List VLESSConfig) (mx mn : Option ℚ) :
    (filter_servers results mx mn).Perm (results.filter (keptBy mx mn)) := by
  rw [filter_servers_eq_filter_sort]
  exact List.mergeSort_perm _ _

/-- Five all-`ok` entries with throughputs 0.5, 1, 3, 5, 8 MB/s
(the spec's Scenario D). -/
def okEntry (q : ℚ) : VLESSConfig :=
  { server := "s", server_port := 1, uuid := "u", speed_mbps := q,
    status := "ok" }

/-- Scenario D input list. -/
def scenarioD : List VLESSConfig :=
  [okEntry (1/2), okEntry 1, okEntry 3, okEntry 5, okEntry 8]

/-- C4: `filter_servers` returns exactly the entries with status `ok` whose
throughput is strictly inside the given bounds, sorted by throughput
non-increasing; on Scenario D with min=1, max=5 it returns just the
3 MB/s entry. -/
theorem filter_servers_spec (results : List VLESSConfig) (mx mn : Option ℚ) :
    (filter_servers results mx mn).Perm (results.filter (keptBy mx mn))
    ∧ (filter_servers results mx mn).Sorted
        (fun a b => b.speed_mbps ≤ a.speed_mbps)
    ∧ filter_servers scenarioD (some 5) (some 1) = [okEntry 3] := by
  refine ⟨filter_servers_perm results mx mn, ?_, ?_⟩
  · have h := filter_servers_pairwise results mx mn
    exact h.imp (fun hab => by simpa [speedGe] using hab)
  · have hf : scenarioD.filter (keptBy (some 5) (some 1)) = [okEntry 3] := by
      norm_num [scenarioD, keptBy, okEntry, List.filter]
    rw [filter_servers_eq_filter_sort, hf]
    exact List.mergeSort_of_sorted (by simp)

/-- C6: `filter_servers` is idempotent — filtering an already filtered list
with the same bounds changes nothing. -/
theorem filter_servers_idempotent (results : List VLESSConfig)
    (mx mn : Option ℚ) :
    filter_servers (filter_servers results mx mn) mx mn
      = filter_servers results mx mn := by
  have hmem : ∀ r ∈ filter_servers results mx mn, keptBy mx mn r = true := by
    intro r hr
    have := (filter_servers_perm results mx mn).mem_iff.mp hr
    exact (List.mem_filter.mp this).2
  rw [filter_servers_eq_filter_sort (filter_servers results mx mn) mx mn,
    List.filter_eq_self.mpr hmem,
    List.mergeSort_of_sorted (filter_servers_pairwise results mx mn)]

/-- `rankForDisplay`: the display ordering computed in
`VLESSCheckerApp.start_check` — partition into `successful` (status `"ok"`)
and `failed`, sort the successful part by throughput descending with the
stable sort, and append the failed part unchanged. -/
def rankForDisplay (results : List VLESSConfig) : List VLESSConfig :=
  let successful := results.filter (fun r => r.status == "ok")
  let failed := results.filter (fun r => r.status != "ok")
  successful.mergeSort speedGe ++ failed

lemma mem_mergeSort_ok (results : List VLESSConfig)
    (r : VLESSConfig)
    (hr : r ∈ (results.filter (fun r => r.status == "ok")).mergeSort speedGe) :
    (r.status == "ok") = true := by
  have hmem := (List.mergeSort_perm
    (results.filter (fun r => r.status == "ok")) speedGe).mem_iff.mp hr
  exact (List.mem_filter.mp hmem).2

lemma rankForDisplay_filter_ok (results : List VLESSConfig) :
    (rankForDisplay results).filter (fun r => r.status == "ok")
      = (results.filter (fun r => r.status == "ok")).mergeSort speedGe := by
  simp only [rankForDisplay, List.filter_append]
  rw [List.filter_eq_self.mpr (fun a ha => mem_mergeSort_ok results a ha)]
  have hnil : (results.filter (fun r => r.status != "ok")).filter
      (fun r => r.status == "ok") = [] := by
    rw [List.filter_eq_nil_iff]
    intro a ha
    have hb := (List.mem_filter.mp ha).2
    simp only [bne_iff_ne] at hb
    simp [hb]
  rw [hnil, List.append_nil]

lemma rankForDisplay_filter_not_ok (results : List VLESSConfig) :
    (rankForDisplay results).filter (fun r => r.status != "ok")
      = results.filter (fun r => r.status != "ok") := by
  simp only [rankForDisplay, List.filter_append]
  have hnil : ((results.filter (fun r => r.status == "ok")).mergeSort
      speedGe).filter (fun r => r.status != "ok") = [] := by
    rw [List.filter_eq_nil_iff]
    intro a ha
    simp [bne, mem_mergeSort_ok results a ha]
  rw [hnil, List.nil_append,
    List.filter_eq_self.mpr (fun a ha => (List.mem_filter.mp ha).2)]

/-- Scenario C entries: one `ok` at 5 MB/s, one `timeout`, one `error`. -/
def cfgOk5 : VLESSConfig :=
  { server := "a", server_port := 1, uuid := "u", speed_mbps := 5,
    status := "ok" }

/-- Scenario C `timeout` entry. -/
def cfgTimedOut : VLESSConfig :=
  { server := "b", server_port := 2, uuid := "u", status := "timeout" }

/-- Scenario C `error` entry. -/
def cfgErrored : VLESSConfig :=
  { server := "c", server_port := 3, uuid := "u", status := "error" }

/-- C5: `rankForDisplay` is a permutation of its input that lists the `ok`
entries first, sorted by throughput descending, followed by the not-`ok`
entries in their original relative order; on Scenario C the single `ok`
entry comes first and the `timeout`/`error` entries keep their order. -/
theorem rankForDisplay_spec (results : List VLESSConfig) :
    (rankForDisplay results).Perm results
    ∧ ((rankForDisplay results).filter (fun r => r.status == "ok")).Sorted
        (fun a b => b.speed_mbps ≤ a.speed_mbps)
    ∧ (rankForDisplay results).filter (fun r => r.status != "ok")
        = results.filter (fun r => r.status != "ok")
    ∧ rankForDisplay results
        = (rankForDisplay results).filter (fun r => r.status == "ok")
          ++ (rankForDisplay results).filter (fun r => r.status != "ok")
    ∧ rankForDisplay [cfgTimedOut, cfgOk5, cfgErrored]
        = [cfgOk5, cfgTimedOut, cfgErrored] := by
  refine ⟨?_, ?_, rankForDisplay_filter_not_ok results, ?_, ?_⟩
  · have h1 : (rankForDisplay results).Perm
        (results.filter (fun r => r.status == "ok")
          ++ results.filter (fun r => r.status != "ok")) :=
      (List.mergeSort_perm _ speedGe).append_right _
    exact h1.trans (List.filter_append_perm _ results)
  · rw [rankForDisplay_filter_ok]
    exact (List.sorted_mergeSort speedGe_trans speedGe_total _).imp
      (fun h => by simpa [speedGe] using h)
  · rw [rankForDisplay_filter_ok, rankForDisplay_filter_not_ok]
    rfl
  · have h1 : List.filter (fun r => r.status == "ok")
        [cfgTimedOut, cfgOk5, cfgErrored] = [cfgOk5] := by rfl
    have h2 : List.filter (fun r => r.status != "ok")
        [cfgTimedOut, cfgOk5, cfgErrored] = [cfgTimedOut, cfgErrored] := by rfl
    simp only [rankForDisplay, h1, h2]
    rw [List.mergeSort_of_sorted (by simp)]
    rfl

/-- A JSON scalar as produced by `json.dump` on a dataclass `asdict`:
a string, a Python int, or a float (kept exact as a rational). -/
inductive JsonVal where
  | jstr (v : String)
  | jint (v : Int)
  | jnum (v : ℚ)
deriving DecidableEq, Repr

/-- `dataclasses.asdict` on a `VLESSConfig`: the field-keyed record written
for one entry of the structured output, in dataclass field order. -/
def asdict (r : VLESSConfig) : List (String × JsonVal) :=
  [("server", .jstr r.server), ("server_port", .jint r.server_port),
   ("uuid", .jstr r.uuid), ("server_name", .jstr r.server_name),
   ("path", .jstr r.path), ("speed_mbps", .jnum r.speed_mbps),
   ("latency_ms", .jnum r.latency_ms), ("status", .jstr r.status),
   ("tag", .jstr r.tag)]

/-- `sorted(results, key=lambda x: x.speed_mbps, reverse=True)` — the stable
descending sort applied by `save_results` before writing. -/
def sortBySpeedDesc (results : List VLESSConfig) : List VLESSConfig :=
  results.mergeSort speedGe

/-- The JSON array `save_results` writes to `<prefix>.json`: one `asdict`
record per entry of the sorted input, preserving sort order. -/
def save_results_json (results : List VLESSConfig) :
    List (List (String × JsonVal)) :=
  (sortBySpeedDesc results).map asdict

/-- Read a string field back out of a parsed record. -/
def getStr (rec : List (String × JsonVal)) (k : String) : Option String :=
  match rec.lookup k with
  | some (JsonVal.jstr s) => some s
  | _ => none

/-- Read an integer field back out of a parsed record. -/
def getInt (rec : List (String × JsonVal)) (k : String) : Option Int :=
  match rec.lookup k with
  | some (JsonVal.jint n) => some n
  | _ => none

/-- Read a numeric field back out of a parsed record. -/
def getNum (rec : List (String × JsonVal)) (k : String) : Option ℚ :=
  match rec.lookup k with
  | some (JsonVal.jnum q) => some q
  | _ => none

/-- Parse one structured-output record back into the
(address, port, status, throughput, latency) tuple. -/
def parseRecord (rec : List (String × JsonVal)) :
    Option (String × Int × String × ℚ × ℚ) :=
  match getStr rec "server", getInt rec "server_port", getStr rec "status",
      getNum rec "speed_mbps", getNum rec "latency_ms" with
  | some a, some p, some st, some sp, some la => some (a, p, st, sp, la)
  | _, _, _, _, _ => none

/-- The (address, port, status, throughput, latency) tuple of an entry. -/
def resultTuple (r : VLESSConfig) : String × Int × String × ℚ × ℚ :=
  (r.server, r.server_port, r.status, r.speed_mbps, r.latency_ms)

lemma parseRecord_asdict (r : VLESSConfig) :
    parseRecord (asdict r) = some (resultTuple r) := rfl

lemma dropWhile_nonzero_all_zero (l : List VLESSConfig)
    (hnn : ∀ r ∈ l, 0 ≤ r.speed_mbps)
    (hs : l.Pairwise (fun a b => speedGe a b = true)) :
    ∀ r ∈ l.dropWhile (fun r => decide (r.speed_mbps ≠ 0)),
      r.speed_mbps = 0 := by
  induction l with
  | nil => simp
  | cons a l ih =>
    rw [List.dropWhile_cons]
    rcases List.pairwise_cons.mp hs with ⟨ha, hl⟩
    by_cases hz : a.speed_mbps = 0
    · rw [if_neg (by simp [hz])]
      intro r hr
      rcases List.mem_cons.mp hr with rfl | hr'
      · exact hz
      · have h1 : r.speed_mbps ≤ a.speed_mbps := by
          simpa [speedGe] using ha r hr'
        rw [hz] at h1
        exact le_antisymm h1 (hnn r (List.mem_cons_of_mem a hr'))
    · rw [if_pos (by simp [hz])]
      exact ih (fun r hr => hnn r (List.mem_cons_of_mem a hr)) hl

/-- C7: `save_results` round-trips — parsing the structured records it
writes reproduces exactly the (address, port, status, throughput, latency)
tuples of the input sorted by throughput descending; when no throughput is
negative the sorted order puts the zero-throughput entries last. -/
theorem save_results_roundtrip (results : List VLESSConfig)
    (hnn : ∀ r ∈ results, 0 ≤ r.speed_mbps) :
    (save_results_json results).map parseRecord
      = (sortBySpeedDesc results).map (fun r => some (resultTuple r))
    ∧ (sortBySpeedDesc results).Sorted (fun a b => b.speed_mbps ≤ a.speed_mbps)
    ∧ ∀ r ∈ (sortBySpeedDesc results).dropWhile
        (fun r => decide (r.speed_mbps ≠ 0)), r.speed_mbps = 0 := by
  refine ⟨?_, ?_, ?_⟩
  · simp only [save_results_json, List.map_map]
    exact List.map_congr_left (fun r _ => parseRecord_asdict r)
  · exact (List.sorted_mergeSort speedGe_trans speedGe_total results).imp
      (fun h => by simpa [speedGe] using h)
  · refine dropWhile_nonzero_all_zero _ ?_
      (List.sorted_mergeSort speedGe_trans speedGe_total results)
    intro r hr
    exact hnn r ((List.mergeSort_perm results speedGe).mem_iff.mp hr)

/-- A small concrete batch for the round-trip witness: one measured entry
and one failed entry with throughput still 0. -/
def demoResults : List VLESSConfig := [okEntry 3, cfgErrored]

theorem save_results_roundtrip_witness :
    (∀ r ∈ demoResults, 0 ≤ r.speed_mbps)
    ∧ ((save_results_json demoResults).map parseRecord
        = (sortBySpeedDesc demoResults).map (fun r => some (resultTuple r))
      ∧ (sortBySpeedDesc demoResults).Sorted
          (fun a b => b.speed_mbps ≤ a.speed_mbps)
      ∧ ∀ r ∈ (sortBySpeedDesc demoResults).dropWhile
          (fun r => decide (r.speed_mbps ≠ 0)), r.speed_mbps = 0) := by
  have hnn : ∀ r ∈ demoResults, 0 ≤ r.speed_mbps := by
    intro r hr
    simp only [demoResults, List.mem_cons, List.not_mem_nil, or_false] at hr
    rcases hr with rfl | rfl
    · norm_num [okEntry]
    · norm_num [cfgErrored]
  exact ⟨hnn, save_results_roundtrip demoResults hnn⟩

/-- An environment whose progress callback raises a generic exception, over
an otherwise healthy endpoint (reachable in 50 ms, probe would return
HTTP 200, 1 MiB in 0.5 s). -/
def envCallbackBoom : ProbeEnv :=
  { callback := .raisesOtherErr, reachable := true, latency := 50,
    http := .response 200 1048576 (1/2) }

/-- C8 counterexample: with the callback raising, the otherwise-`ok` check
is aborted with no HTTP attempt — a generic exception from the sink gives
status `error`, an `asyncio.TimeoutError` from the sink gives status
`timeout` — although with a well-behaved callback the very same descriptor
would end `ok`.  The probing task's outcome IS altered by the sink's
exception. -/
theorem measure_speed_callback_alters_outcome :
    (measure_speed envCallbackBoom cfgScenario).1.status = "error"
    ∧ (measure_speed envCallbackBoom cfgScenario).2 = false
    ∧ (measure_speed { envCallbackBoom with callback := .raisesTimeoutErr }
        cfgScenario).1.status = "timeout"
    ∧ (measure_speed { envCallbackBoom with callback := .completes }
        cfgScenario).1.status = "ok"
    ∧ (measure_speed envCallbackBoom cfgScenario).1.status
        ≠ (measure_speed { envCallbackBoom with callback := .completes }
            cfgScenario).1.status :=
  ⟨rfl, rfl, rfl, rfl, by decide⟩

/-- C8 (amended): an exception raised by the progress sink is caught by
the `try`/`except` handlers of `measure_speed`, so it never propagates to
fail the batch and the descriptor is still returned by `check_servers`; but the
check is aborted rather than run to its normal outcome: the descriptor
comes back with the status of the matching handler — `timeout` when the
sink raises `asyncio.TimeoutError`, `error` for any other exception — its
measured fields untouched, and no latency or throughput probe attempted. -/
theorem measure_speed_callback_raises (env : ProbeEnv) (c : VLESSConfig)
    (hcb : env.callback ≠ CallbackOutcome.completes) :
    (measure_speed env c).1.status
        = (if env.callback = CallbackOutcome.raisesTimeoutErr then "timeout"
            else "error")
    ∧ (measure_speed env c).2 = false
    ∧ (measure_speed env c).1.latency_ms = c.latency_ms
    ∧ (measure_speed env c).1.speed_mbps = c.speed_mbps
    ∧ check_servers [c] [some env] = [(measure_speed env c).1] := by
  rcases env with ⟨cb, re, la, http⟩
  cases cb with
  | completes => exact absurd rfl hcb
  | raisesTimeoutErr =>
      refine ⟨?_, ?_, ?_, ?_, ?_⟩ <;> simp [measure_speed, check_servers]
  | raisesOtherErr =>
      refine ⟨?_, ?_, ?_, ?_, ?_⟩ <;> simp [measure_speed, check_servers]

theorem measure_speed_callback_raises_witness :
    envCallbackBoom.callback ≠ CallbackOutcome.completes
    ∧ ((measure_speed envCallbackBoom cfgScenario).1.status
        = (if envCallbackBoom.callback = CallbackOutcome.raisesTimeoutErr
            then "timeout" else "error")
      ∧ (measure_speed envCallbackBoom cfgScenario).2 = false
      ∧ (measure_speed envCallbackBoom cfgScenario).1.latency_ms
          = cfgScenario.latency_ms
      ∧ (measure_speed envCallbackBoom cfgScenario).1.speed_mbps
          = cfgScenario.speed_mbps
      ∧ check_servers [cfgScenario] [some envCallbackBoom]
          = [(measure_speed envCallbackBoom cfgScenario).1]) :=
  ⟨by decide,
    measure_speed_callback_raises envCallbackBoom cfgScenario (by decide)⟩

/-- Python `str.strip()` on a list of characters: drop whitespace from both
ends. -/
def pyStrip (s : List Char) : List Char :=
  ((s.dropWhile Char.isWhitespace).reverse.dropWhile Char.isWhitespace).reverse

/-- Python's unbounded `str.split(sep)` for a one-character separator:
always returns (number of separators + 1) parts, empty parts included. -/
def pySplit (sep : Char) : List Char → List (List Char)
  | [] => [[]]
  | c :: rest =>
    match pySplit sep rest with
    | [] => [[]]
    | h :: t => if c = sep then [] :: h :: t else (c :: h) :: t

/-- The numeric value of a string of ASCII digits, most significant first. -/
def digitsVal (s : List Char) : Nat :=
  s.foldl (fun acc c => 10 * acc + (c.toNat - 48)) 0

/-- Parse a non-empty, all-ASCII-digit string as a `Nat`. -/
def parseDigits (s : List Char) : Option Nat :=
  if s ≠ [] ∧ s.all Char.isDigit then some (digitsVal s) else none

/-- Python `int()` applied to an already-stripped string: an optional sign
followed by decimal digits.  (Python's underscore digit grouping and
non-ASCII decimal digits are not modelled; no claim depends on them.) -/
def pyInt (s : List Char) : Option Int :=
  match s with
  | '-' :: rest => (parseDigits rest).map (fun n => -(n : Int))
  | '+' :: rest => (parseDigits rest).map (fun n => (n : Int))
  | _ => (parseDigits s).map (fun n => (n : Int))

/-- One iteration of `VLESSCheckerApp.parse_servers`'s loop: strip the line,
skip it when empty or without `:`, try `ip, port = line.split(':')` (which
raises unless there are exactly two parts) and `int(port.strip())`; any
`ValueError` skips the line. -/
def parseLine (line0 : List Char) : Option (List Char × Int) :=
  let line := pyStrip line0
  if line = [] ∨ ¬ line.contains ':' then none
  else
    match pySplit ':' line with
    | [ip, portStr] => (pyInt (pyStrip portStr)).map (fun p => (pyStrip ip, p))
    | _ => none

/-- `VLESSCheckerApp.parse_servers`: strip the whole text, split it into
lines, and collect the successfully parsed `(address, port)` pairs. -/
def parse_servers (text : List Char) : List (List Char × Int) :=
  (pySplit '\n' (pyStrip text)).filterMap parseLine

lemma pySplit_ne_nil (sep : Char) (s : List Char) : pySplit sep s ≠ [] := by
  cases s with
  | nil => simp [pySplit]
  | cons c rest =>
    simp only [pySplit]
    cases pySplit sep rest with
    | nil => simp
    | cons h t =>
      by_cases hc : c = sep <;> simp [hc]

lemma pySplit_length (sep : Char) (s : List Char) :
    (pySplit sep s).length = s.count sep + 1 := by
  induction s with
  | nil => simp [pySplit]
  | cons c rest ih =>
    simp only [pySplit]
    cases hps : pySplit sep rest with
    | nil => exact absurd hps (pySplit_ne_nil sep rest)
    | cons h t =>
      rw [hps] at ih
      by_cases hc : c = sep
      · subst hc
        simp only [if_pos rfl, List.count_cons_self]
        simpa using ih
      · simp only [if_neg hc, List.length_cons,
          List.count_cons_of_ne (fun he => hc he.symm)]
        simpa using ih

lemma count_dropWhile_eq (p : Char → Bool) (c : Char) (hc : p c = false)
    (l : List Char) : (l.dropWhile p).count c = l.count c := by
  induction l with
  | nil => simp
  | cons a l ih =>
    rw [List.dropWhile_cons]
    by_cases ha : p a = true
    · rw [if_pos ha, ih, List.count_cons_of_ne]
      intro he
      rw [he] at hc
      rw [hc] at ha
      exact Bool.false_ne_true ha
    · rw [if_neg ha]

lemma count_pyStrip (c : Char) (hc : c.isWhitespace = false) (s : List Char) :
    (pyStrip s).count c = s.count c := by
  unfold pyStrip
  rw [List.count_reverse, count_dropWhile_eq _ c hc, List.count_reverse,
    count_dropWhile_eq _ c hc]

lemma parseLine_multicolon (line : List Char) (h : 2 ≤ line.count ':') :
    parseLine line = none := by
  have hws : (':' : Char).isWhitespace = false := by decide
  have h2 : 2 ≤ (pyStrip line).count ':' := by
    rw [count_pyStrip ':' hws line]
    exact h
  have hmem : ':' ∈ pyStrip line :=
    List.count_pos_iff.mp (lt_of_lt_of_le (by norm_num) h2)
  have hcond : ¬ (pyStrip line = [] ∨ ¬ (pyStrip line).contains ':') := by
    push_neg
    refine ⟨fun hnil => by rw [hnil] at hmem; simp at hmem, ?_⟩
    exact List.elem_eq_true_of_mem hmem
  simp only [parseLine]
  rw [if_neg hcond]
  have hlen := pySplit_length ':' (pyStrip line)
  rcases hsp : pySplit ':' (pyStrip line) with _ | ⟨a, rest⟩
  · rfl
  · rcases rest with _ | ⟨b, rest2⟩
    · rfl
    · rcases rest2 with _ | ⟨c, t⟩
      · rw [hsp] at hlen
        simp only [List.length_cons, List.length_nil] at hlen
        omega
      · rfl

/-- C10: a line containing two or more `:` characters (such as the IPv6
literal line `::1:443`) never parses — the unbounded `split(':')` produces
more than two parts, the tuple unpacking raises `ValueError`, and the line
is discarded — so it contributes nothing to `parse_servers`. -/
theorem parse_servers_discards_multicolon (line : List Char)
    (h : 2 ≤ line.count ':') :
    parseLine line = none
    ∧ (∀ pre post : List (List Char),
        List.filterMap parseLine (pre ++ line :: post)
          = List.filterMap parseLine (pre ++ post))
    ∧ ∀ text : List Char,
        parse_servers text
          = List.filterMap parseLine (pySplit '\n' (pyStrip text)) := by
  have hnone := parseLine_multicolon line h
  refine ⟨hnone, ?_, fun text => rfl⟩
  intro pre post
  simp [List.filterMap_append, List.filterMap_cons, hnone]

theorem parse_servers_discards_multicolon_witness :
    2 ≤ (("::1:443".toList).count ':')
    ∧ parseLine ("::1:443".toList) = none := by
  have h : 2 ≤ (("::1:443".toList).count ':') := by decide
  exact ⟨h, (parse_servers_discards_multicolon _ h).1⟩

/-- C9 counterexample: the line `1.2.3.4:0` parses successfully — `int("0")`
raises no `ValueError` and no range check exists — yielding port 0, which is
outside the claimed range 1–65535. -/
theorem parse_servers_port_zero_cex :
    parse_servers ("1.2.3.4:0".toList) = [("1.2.3.4".toList, (0 : Int))]
    ∧ ¬ (1 ≤ (0 : Int) ∧ (0 : Int) ≤ 65535) :=
  ⟨by decide, by decide⟩

/-- C9 (amended): every pair returned by `parse_servers` comes from a line
whose stripped form splits on `:` into exactly an address part and a port
part that `int()` accepts — an integer, but not range-checked against
1–65535 — and every line that fails to parse is discarded rather than
aborting the import: the Scenario E text with lines `1.2.3.4:443`,
`bad-line`, `5.6.7.8:8443` yields exactly the 2 well-formed endpoints. -/
theorem parse_servers_int_ports (text : List Char) (pr : List Char × Int) :
    (pr ∈ parse_servers text →
      ∃ line ∈ pySplit '\n' (pyStrip text),
        ∃ ip portPart, pySplit ':' (pyStrip line) = [ip, portPart]
          ∧ pyInt (pyStrip portPart) = some pr.2 ∧ pr.1 = pyStrip ip)
    ∧ parse_servers ("1.2.3.4:443\nbad-line\n5.6.7.8:8443".toList)
        = [("1.2.3.4".toList, 443), ("5.6.7.8".toList, 8443)] := by
  constructor
  · intro hmem
    simp only [parse_servers, List.mem_filterMap] at hmem
    obtain ⟨line, hline, hparse⟩ := hmem
    refine ⟨line, hline, ?_⟩
    simp only [parseLine] at hparse
    by_cases hcond : pyStrip line = [] ∨ ¬ (pyStrip line).contains ':'
    · rw [if_pos hcond] at hparse
      exact absurd hparse (by simp)
    · rw [if_neg hcond] at hparse
      rcases hsp : pySplit ':' (pyStrip line) with _ | ⟨a, rest⟩
      · rw [hsp] at hparse
        exact absurd hparse (by simp)
      · rcases rest with _ | ⟨b, rest2⟩
        · rw [hsp] at hparse
          exact absurd hparse (by simp)
        · rcases rest2 with _ | ⟨c, t⟩
          · rw [hsp] at hparse
            simp only [Option.map_eq_some'] at hparse
            obtain ⟨p, hp, hfp⟩ := hparse
            subst hfp
            exact ⟨a, b, rfl, hp, rfl⟩
          · rw [hsp] at hparse
            exact absurd hparse (by simp)
  · decide

theorem parse_servers_int_ports_witness :
    (("1.2.3.4".toList, (443 : Int))
        ∈ parse_servers ("1.2.3.4:443\nbad-line".toList))
    ∧ ∃ line ∈ pySplit '\n' (pyStrip ("1.2.3.4:443\nbad-line".toList)),
        ∃ ip portPart, pySplit ':' (pyStrip line) = [ip, portPart]
          ∧ pyInt (pyStrip portPart) = some (443 : Int)
          ∧ ("1.2.3.4".toList) = pyStrip ip := by
  have hmem : (("1.2.3.4".toList, (443 : Int))
      ∈ parse_servers ("1.2.3.4:443\nbad-line".toList)) := by decide
  exact ⟨hmem, (parse_servers_int_ports ("1.2.3.4:443\nbad-line".toList)
    ("1.2.3.4".toList, (443 : Int))).1 hmem⟩
